import Mathlib

/-!
Shallow embedding of the GitLab token monitor's classification and
aggregation core (token_analyzer.py, main.py, gitlab_token_monitoring.py).

Naive timestamps are modelled as `Int` seconds; Python's
`timedelta(days=k)` is `k * 86400` seconds and `timedelta.days` is flooring
division by 86400 (`Int.fdiv`). The standard-library ISO-8601 parser
`datetime.fromisoformat` is an external collaborator and is modelled as an
abstract parameter `fromiso : String → Option Int` (`none` models the
`ValueError` branch); the repository's own preprocessing
`.replace("Z", "+00:00")` is kept explicit. A token dictionary is modelled
by the fields the core reads or writes; Python's falsy test
`not token.get("expires_at")` is true for a missing key and for the empty
string, captured by `expiresAtTruthy`.
-/

/-- Seconds in one day, the unit conversion behind `timedelta(days=k)`. -/
def secondsPerDay : Int := 86400

/-- One raw access-token record as fetched from the platform API. -/
structure Token where
  name : String
  userId : Option Nat
  tokenType : Option String
  expiresAt : Option String
  projectName : Option String
  projectPath : Option String
  groupName : Option String
  groupPath : Option String
deriving DecidableEq

/-- The value of the computed field `days_until_expiry`: an integer day
count, or the sentinel strings "Never" / "Unknown" used by the code. -/
inductive DaysValue where
  | num (d : Int)
  | never
  | unknown
deriving DecidableEq

/-- A token record after classification: the original record plus the two
computed fields `status` and `days_until_expiry` the code writes into the
dictionary. -/
structure AnalyzedToken where
  tok : Token
  status : String
  daysUntilExpiry : DaysValue
deriving DecidableEq

/-- The result dictionary built by `TokenAnalyzer.analyze_all_tokens`:
four category buckets plus `total_count`, in the construction order of the
source. -/
structure TokenAnalysis where
  expiringSoon : List AnalyzedToken
  expired : List AnalyzedToken
  healthy : List AnalyzedToken
  noExpiration : List AnalyzedToken
  totalCount : Nat
deriving DecidableEq

/-- Python's truthiness test `token.get("expires_at")`: `none` when the
field is absent or the empty string (both falsy), otherwise the string. -/
def expiresAtTruthy (token : Token) : Option String :=
  match token.expiresAt with
  | none => none
  | some s => if s = "" then none else some s

/-- The body of the per-token loop of `analyze_all_tokens`
(token_analyzer.py lines 25-58): route one token into a bucket of the
running result, attaching `status` and `days_until_expiry`. -/
def processToken (fromiso : String → Option Int) (currentDate thresholdDate : Int)
    (result : TokenAnalysis) (token : Token) : TokenAnalysis :=
  match expiresAtTruthy token with
  | none =>
      { result with noExpiration :=
          result.noExpiration ++ [⟨token, "No Expiration", DaysValue.never⟩] }
  | some s =>
      match fromiso (s.replace ("Z") ("+00:00")) with
      | some expiresAt =>
          let daysUntilExpiry := Int.fdiv (expiresAt - currentDate) secondsPerDay
          if expiresAt ≤ currentDate then
            { result with expired :=
                result.expired ++ [⟨token, "Expired", DaysValue.num daysUntilExpiry⟩] }
          else if expiresAt ≤ thresholdDate then
            { result with expiringSoon :=
                result.expiringSoon ++ [⟨token, "Expiring Soon", DaysValue.num daysUntilExpiry⟩] }
          else
            { result with healthy :=
                result.healthy ++ [⟨token, "Healthy", DaysValue.num daysUntilExpiry⟩] }
      | none =>
          { result with healthy :=
              result.healthy ++ [⟨token, "Error", DaysValue.unknown⟩] }

/-- `TokenAnalyzer.analyze_all_tokens(tokens, days_threshold)` evaluated at
clock instant `now`: initialise the result with empty buckets and
`total_count = len(tokens)`, then fold the loop body over the tokens with
`threshold_date = now + timedelta(days=days_threshold)`. -/
def analyzeAllTokens (fromiso : String → Option Int) (tokens : List Token)
    (daysThreshold : Int) (now : Int) : TokenAnalysis :=
  tokens.foldl (processToken fromiso now (now + daysThreshold * secondsPerDay))
    { expiringSoon := [], expired := [], healthy := [], noExpiration := [],
      totalCount := tokens.length }

/-- Which of the four buckets a classified token is routed to. -/
inductive Bucket where
  | expired
  | expiringSoon
  | healthy
  | noExpiration
deriving DecidableEq

/-- Per-token classification outcome: the enriched record together with
its destination bucket. Proved below to characterise `processToken`. -/
def classifyToken (fromiso : String → Option Int) (currentDate thresholdDate : Int)
    (token : Token) : AnalyzedToken × Bucket :=
  match expiresAtTruthy token with
  | none => (⟨token, "No Expiration", DaysValue.never⟩, Bucket.noExpiration)
  | some s =>
      match fromiso (s.replace ("Z") ("+00:00")) with
      | some expiresAt =>
          let d := Int.fdiv (expiresAt - currentDate) secondsPerDay
          if expiresAt ≤ currentDate then
            (⟨token, "Expired", DaysValue.num d⟩, Bucket.expired)
          else if expiresAt ≤ thresholdDate then
            (⟨token, "Expiring Soon", DaysValue.num d⟩, Bucket.expiringSoon)
          else
            (⟨token, "Healthy", DaysValue.num d⟩, Bucket.healthy)
      | none => (⟨token, "Error", DaysValue.unknown⟩, Bucket.healthy)

/-- Append one classified token to the bucket it was routed to. -/
def appendBucket (b : Bucket) (a : AnalyzedToken) (result : TokenAnalysis) : TokenAnalysis :=
  match b with
  | Bucket.expired => { result with expired := result.expired ++ [a] }
  | Bucket.expiringSoon => { result with expiringSoon := result.expiringSoon ++ [a] }
  | Bucket.healthy => { result with healthy := result.healthy ++ [a] }
  | Bucket.noExpiration => { result with noExpiration := result.noExpiration ++ [a] }

/-- The sub-list of classified tokens routed to bucket `b`, in order. -/
def bucketList (b : Bucket) (l : List (AnalyzedToken × Bucket)) : List AnalyzedToken :=
  l.filterMap (fun p => if p.2 = b then some p.1 else none)

/-- The empty accumulator `all_token_analysis` built at the start of
`GitLabTokenMonitor.run_monitoring` (main.py lines 25-31). -/
def emptyAnalysis : TokenAnalysis :=
  { expired := [], expiringSoon := [], healthy := [], noExpiration := [], totalCount := 0 }

/-- `GitLabTokenMonitor._merge_analysis` (main.py lines 68-72): extend each
of the four category sequences of the accumulator with the addition's
matching sequence and add the total counts. -/
def mergeAnalysis (allAnalysis newAnalysis : TokenAnalysis) : TokenAnalysis :=
  { expired := allAnalysis.expired ++ newAnalysis.expired,
    expiringSoon := allAnalysis.expiringSoon ++ newAnalysis.expiringSoon,
    healthy := allAnalysis.healthy ++ newAnalysis.healthy,
    noExpiration := allAnalysis.noExpiration ++ newAnalysis.noExpiration,
    totalCount := allAnalysis.totalCount + newAnalysis.totalCount }

/-- The four buckets of an analysis viewed as multisets, the order-free
residue of bucket membership. -/
def bucketMultisets (a : TokenAnalysis) :
    Multiset AnalyzedToken × Multiset AnalyzedToken ×
      Multiset AnalyzedToken × Multiset AnalyzedToken :=
  (↑a.expired, ↑a.expiringSoon, ↑a.healthy, ↑a.noExpiration)

/-- The per-record mutation of `_process_project_tokens` (main.py lines
87-89): write the owning project's display name and path into the record,
leaving every other field alone. -/
def setProjectMeta (nm pth : String) (a : AnalyzedToken) : AnalyzedToken :=
  { a with tok := { a.tok with projectName := some nm, projectPath := some pth } }

/-- The metadata loop of `_process_project_tokens` (main.py lines 86-89):
attach the project's name and `path_with_namespace` (defaulting to the
name when absent) to every record in every bucket of one batch. -/
def attachProjectMeta (projName : String) (pathWithNamespace : Option String)
    (analysis : TokenAnalysis) : TokenAnalysis :=
  { expired := analysis.expired.map (setProjectMeta projName (pathWithNamespace.getD projName)),
    expiringSoon :=
      analysis.expiringSoon.map (setProjectMeta projName (pathWithNamespace.getD projName)),
    healthy := analysis.healthy.map (setProjectMeta projName (pathWithNamespace.getD projName)),
    noExpiration :=
      analysis.noExpiration.map (setProjectMeta projName (pathWithNamespace.getD projName)),
    totalCount := analysis.totalCount }

/-- The per-record mutation of `_process_group_tokens` (main.py lines
115-117): write the owning group's display name and path into the record. -/
def setGroupMeta (nm pth : String) (a : AnalyzedToken) : AnalyzedToken :=
  { a with tok := { a.tok with groupName := some nm, groupPath := some pth } }

/-- The metadata loop of `_process_group_tokens` (main.py lines 114-117):
attach the group's name and `full_path` (defaulting to the name when
absent) to every record in every bucket of one batch. -/
def attachGroupMeta (grpName : String) (fullPath : Option String)
    (analysis : TokenAnalysis) : TokenAnalysis :=
  { expired := analysis.expired.map (setGroupMeta grpName (fullPath.getD grpName)),
    expiringSoon := analysis.expiringSoon.map (setGroupMeta grpName (fullPath.getD grpName)),
    healthy := analysis.healthy.map (setGroupMeta grpName (fullPath.getD grpName)),
    noExpiration := analysis.noExpiration.map (setGroupMeta grpName (fullPath.getD grpName)),
    totalCount := analysis.totalCount }

/-- The dictionary returned by `TokenAnalyzer.get_summary_stats`
(token_analyzer.py lines 72-81). -/
structure SummaryStats where
  totalTokens : Nat
  expiredCount : Nat
  expiringCount : Nat
  healthyCount : Nat
  permanentCount : Nat
  problematicCount : Nat
deriving DecidableEq

/-- `TokenAnalyzer.get_summary_stats` (token_analyzer.py lines 72-81). -/
def getSummaryStats (analysis : TokenAnalysis) : SummaryStats :=
  { totalTokens := analysis.totalCount,
    expiredCount := analysis.expired.length,
    expiringCount := analysis.expiringSoon.length,
    healthyCount := analysis.healthy.length,
    permanentCount := analysis.noExpiration.length,
    problematicCount := analysis.expired.length + analysis.expiringSoon.length }

/-- The notification decision of
`GitLabTokenMonitor._print_summary_and_notify` (main.py lines 142-148):
when `send_all_tokens` is set or the summary's `problematic_count` is
positive, the analysis (tagged with the include-all flag) is handed to the
email reporter; otherwise nothing is sent and the run continues. -/
def printSummaryAndNotify (sendAllTokens : Bool) (analysis : TokenAnalysis) :
    Option (TokenAnalysis × Bool) :=
  if sendAllTokens || decide (0 < (getSummaryStats analysis).problematicCount) then
    some (analysis, sendAllTokens)
  else
    none

/-- The body of the legacy per-token loop of
`GitLabTokenMonitor.check_token_expiration` (gitlab_token_monitoring.py
lines 157-172): a token is emitted, paired with its computed
`days_until_expiry`, exactly when its expiry is present, parses, and is at
most `thresholdDate`; otherwise it is skipped. -/
def legacyCheckOne (fromiso : String → Option Int) (now thresholdDate : Int)
    (token : Token) : Option (Token × Int) :=
  match expiresAtTruthy token with
  | none => none
  | some s =>
      match fromiso (s.replace ("Z") ("+00:00")) with
      | some expiresAt =>
          if expiresAt ≤ thresholdDate then
            some (token, Int.fdiv (expiresAt - now) secondsPerDay)
          else none
      | none => none

/-- `GitLabTokenMonitor.check_token_expiration(tokens, days_threshold)`
(gitlab_token_monitoring.py lines 152-174) evaluated at clock instant
`now`: fold the legacy loop, appending each emitted token in input order. -/
def checkTokenExpiration (fromiso : String → Option Int) (tokens : List Token)
    (daysThreshold : Int) (now : Int) : List (Token × Int) :=
  tokens.foldl
    (fun expiringTokens token =>
      match legacyCheckOne fromiso now (now + daysThreshold * secondsPerDay) token with
      | some p => expiringTokens ++ [p]
      | none => expiringTokens)
    []

/-- Forget the status label of an analyzed token, keeping the record and
its `days_until_expiry` value, for comparison with the legacy checker. -/
def analyzedPair (a : AnalyzedToken) : Token × DaysValue :=
  (a.tok, a.daysUntilExpiry)

/-- View a legacy result entry in the same shape. -/
def legacyPair (p : Token × Int) : Token × DaysValue :=
  (p.1, DaysValue.num p.2)

/-- A parse stub standing for `datetime.fromisoformat` on an input whose
timestamp reads as the instant `e` (in seconds). -/
def isoConst (e : Int) : String → Option Int := fun _ => some e

/-- A parse stub standing for `datetime.fromisoformat` raising
`ValueError` on its input. -/
def isoFail : String → Option Int := fun _ => none

/-- A concrete personal-token record used to instantiate the theorems. -/
def tokPersonal : Token :=
  { name := "ci-token", userId := some 7, tokenType := none,
    expiresAt := some ("2024-01-08T00:00:00"),
    projectName := none, projectPath := none, groupName := none, groupPath := none }

/-- A concrete record with no `expires_at` field. -/
def tokPermanent : Token :=
  { name := "bot-token", userId := some 8, tokenType := none, expiresAt := none,
    projectName := none, projectPath := none, groupName := none, groupPath := none }

/-- A concrete record whose `expires_at` field is the empty string. -/
def tokEmptyExpiry : Token :=
  { name := "blank-token", userId := some 9, tokenType := none, expiresAt := some (""),
    projectName := none, projectPath := none, groupName := none, groupPath := none }

/-- A concrete record whose `expires_at` does not parse. -/
def tokMalformed : Token :=
  { name := "odd-token", userId := some 10, tokenType := none,
    expiresAt := some ("not-a-date"),
    projectName := none, projectPath := none, groupName := none, groupPath := none }

/-- A concrete one-record batch used to instantiate the merge theorem. -/
def sampleBatchA : TokenAnalysis :=
  { expired := [⟨tokMalformed, "Expired", DaysValue.num (-2)⟩],
    expiringSoon := [], healthy := [], noExpiration := [], totalCount := 1 }

/-- A concrete two-record batch used to instantiate the merge theorem. -/
def sampleBatchB : TokenAnalysis :=
  { expired := [],
    expiringSoon := [⟨tokPersonal, "Expiring Soon", DaysValue.num 3⟩],
    healthy := [],
    noExpiration := [⟨tokPermanent, "No Expiration", DaysValue.never⟩],
    totalCount := 2 }

theorem processToken_eq_appendBucket (fromiso : String → Option Int) (now thr : Int)
    (result : TokenAnalysis) (token : Token) :
    processToken fromiso now thr result token =
      appendBucket (classifyToken fromiso now thr token).2
        (classifyToken fromiso now thr token).1 result := by
  unfold processToken classifyToken
  cases h : expiresAtTruthy token with
  | none => rfl
  | some s =>
    cases hp : fromiso (s.replace ("Z") ("+00:00")) with
    | none => simp only [hp, appendBucket]
    | some e =>
      simp only [hp]
      by_cases h1 : e ≤ now
      · simp [h1, appendBucket]
      · by_cases h2 : e ≤ thr
        · simp [h1, h2, appendBucket]
        · simp [h1, h2, appendBucket]

theorem bucketList_nil (b : Bucket) : bucketList b [] = [] := rfl

theorem bucketList_cons (b bb : Bucket) (a : AnalyzedToken)
    (l : List (AnalyzedToken × Bucket)) :
    bucketList b ((a, bb) :: l) =
      (if bb = b then [a] else []) ++ bucketList b l := by
  by_cases hbb : bb = b <;> simp [bucketList, List.filterMap_cons, hbb]

theorem foldl_processToken (fromiso : String → Option Int) (now thr : Int)
    (l : List Token) (r : TokenAnalysis) :
    l.foldl (processToken fromiso now thr) r =
      { expiringSoon :=
          r.expiringSoon ++ bucketList Bucket.expiringSoon (l.map (classifyToken fromiso now thr)),
        expired :=
          r.expired ++ bucketList Bucket.expired (l.map (classifyToken fromiso now thr)),
        healthy :=
          r.healthy ++ bucketList Bucket.healthy (l.map (classifyToken fromiso now thr)),
        noExpiration :=
          r.noExpiration ++ bucketList Bucket.noExpiration (l.map (classifyToken fromiso now thr)),
        totalCount := r.totalCount } := by
  induction l generalizing r with
  | nil => simp [bucketList_nil]
  | cons x l ih =>
    rw [List.foldl_cons, processToken_eq_appendBucket, ih]
    rcases hx : classifyToken fromiso now thr x with ⟨a, b⟩
    simp only [List.map_cons, hx]
    cases b <;> simp [appendBucket, bucketList_cons]

/-- Closed form of `analyzeAllTokens`: each bucket is the ordered sub-list
of per-token classifications routed to it, and `total_count` is the input
length. -/
theorem analyzeAllTokens_eq (fromiso : String → Option Int) (tokens : List Token)
    (daysThreshold now : Int) :
    analyzeAllTokens fromiso tokens daysThreshold now =
      { expiringSoon :=
          bucketList Bucket.expiringSoon
            (tokens.map (classifyToken fromiso now (now + daysThreshold * secondsPerDay))),
        expired :=
          bucketList Bucket.expired
            (tokens.map (classifyToken fromiso now (now + daysThreshold * secondsPerDay))),
        healthy :=
          bucketList Bucket.healthy
            (tokens.map (classifyToken fromiso now (now + daysThreshold * secondsPerDay))),
        noExpiration :=
          bucketList Bucket.noExpiration
            (tokens.map (classifyToken fromiso now (now + daysThreshold * secondsPerDay))),
        totalCount := tokens.length } := by
  unfold analyzeAllTokens
  rw [foldl_processToken]
  simp

theorem classifyToken_fst_tok (fromiso : String → Option Int) (now thr : Int) (token : Token) :
    (classifyToken fromiso now thr token).1.tok = token := by
  unfold classifyToken
  cases h : expiresAtTruthy token with
  | none => rfl
  | some s =>
    cases hp : fromiso (s.replace ("Z") ("+00:00")) with
    | none => simp [hp]
    | some e =>
      simp only [hp]
      by_cases h1 : e ≤ now
      · simp [h1]
      · by_cases h2 : e ≤ thr <;> simp [h1, h2]

theorem mem_bucketList (a : AnalyzedToken) (b : Bucket) (l : List (AnalyzedToken × Bucket))
    (h : (a, b) ∈ l) : a ∈ bucketList b l := by
  simp only [bucketList, List.mem_filterMap]
  exact ⟨(a, b), h, by simp⟩

theorem bucketList_length_sum (l : List (AnalyzedToken × Bucket)) :
    (bucketList Bucket.expired l).length + (bucketList Bucket.expiringSoon l).length +
      (bucketList Bucket.healthy l).length + (bucketList Bucket.noExpiration l).length =
      l.length := by
  induction l with
  | nil => rfl
  | cons x l ih =>
    rcases x with ⟨a, b⟩
    cases b <;> simp [bucketList_cons] <;> omega

theorem bucketList_multiset_sum (l : List (AnalyzedToken × Bucket)) :
    ((bucketList Bucket.expired l : Multiset AnalyzedToken) +
        (bucketList Bucket.expiringSoon l : Multiset AnalyzedToken) +
        (bucketList Bucket.healthy l : Multiset AnalyzedToken) +
        (bucketList Bucket.noExpiration l : Multiset AnalyzedToken)) =
      (l.map Prod.fst : Multiset AnalyzedToken) := by
  induction l with
  | nil => rfl
  | cons x l ih =>
    rcases x with ⟨a, b⟩
    cases b <;>
      simp [bucketList_cons, ← Multiset.cons_coe, Multiset.cons_add, Multiset.add_cons] <;>
      · rw [← Multiset.coe_eq_coe, ← Multiset.coe_add, ← Multiset.coe_add, ← Multiset.coe_add,
          ← add_assoc, ← add_assoc]
        exact ih

theorem bucketLists_append_perm (l : List (AnalyzedToken × Bucket)) :
    List.Perm
      (bucketList Bucket.expired l ++ bucketList Bucket.expiringSoon l ++
        bucketList Bucket.healthy l ++ bucketList Bucket.noExpiration l)
      (l.map Prod.fst) := by
  rw [← Multiset.coe_eq_coe, ← Multiset.coe_add, ← Multiset.coe_add, ← Multiset.coe_add]
  exact bucketList_multiset_sum l

theorem bucketMultisets_merge (a b : TokenAnalysis) :
    bucketMultisets (mergeAnalysis a b) = bucketMultisets a + bucketMultisets b := by
  simp [bucketMultisets, mergeAnalysis, ← Multiset.coe_add, Prod.ext_iff]

theorem totalCount_merge (a b : TokenAnalysis) :
    (mergeAnalysis a b).totalCount = a.totalCount + b.totalCount := rfl

theorem foldl_merge_bucketMultisets (l : List TokenAnalysis) (acc : TokenAnalysis) :
    bucketMultisets (l.foldl mergeAnalysis acc) =
      bucketMultisets acc + (l.map bucketMultisets).sum := by
  induction l generalizing acc with
  | nil => simp
  | cons x l ih =>
    rw [List.foldl_cons, ih, bucketMultisets_merge, List.map_cons, List.sum_cons, add_assoc]

theorem foldl_merge_totalCount (l : List TokenAnalysis) (acc : TokenAnalysis) :
    (l.foldl mergeAnalysis acc).totalCount =
      acc.totalCount + (l.map TokenAnalysis.totalCount).sum := by
  induction l generalizing acc with
  | nil => simp
  | cons x l ih =>
    rw [List.foldl_cons, ih, totalCount_merge, List.map_cons, List.sum_cons, add_assoc]

theorem foldl_legacy (fromiso : String → Option Int) (now thr : Int)
    (l : List Token) (acc : List (Token × Int)) :
    l.foldl
      (fun expiringTokens token =>
        match legacyCheckOne fromiso now thr token with
        | some p => expiringTokens ++ [p]
        | none => expiringTokens) acc =
      acc ++ l.filterMap (legacyCheckOne fromiso now thr) := by
  induction l generalizing acc with
  | nil => simp
  | cons t l ih =>
    cases h : legacyCheckOne fromiso now thr t <;>
      simp [h, List.filterMap_cons, ih]

theorem checkTokenExpiration_eq (fromiso : String → Option Int) (tokens : List Token)
    (daysThreshold now : Int) :
    checkTokenExpiration fromiso tokens daysThreshold now =
      tokens.filterMap (legacyCheckOne fromiso now (now + daysThreshold * secondsPerDay)) := by
  unfold checkTokenExpiration
  rw [foldl_legacy]
  simp

theorem legacy_matches_problematic_buckets (fromiso : String → Option Int) (now thr : Int)
    (hthr : now ≤ thr) (l : List Token) :
    (((l.filterMap (legacyCheckOne fromiso now thr)).map legacyPair :
        List (Token × DaysValue)) : Multiset (Token × DaysValue)) =
      (((bucketList Bucket.expired (l.map (classifyToken fromiso now thr)) ++
          bucketList Bucket.expiringSoon (l.map (classifyToken fromiso now thr))).map
            analyzedPair : List (Token × DaysValue)) : Multiset (Token × DaysValue)) := by
  induction l with
  | nil => rfl
  | cons t l ih =>
    cases h : expiresAtTruthy t with
    | none =>
      simp only [List.map_cons, List.filterMap_cons, legacyCheckOne, classifyToken, h,
        bucketList_cons]
      simpa using ih
    | some s =>
      cases hp : fromiso (s.replace ("Z") ("+00:00")) with
      | none =>
        simp only [List.map_cons, List.filterMap_cons, legacyCheckOne, classifyToken, h, hp,
          bucketList_cons]
        simpa using ih
      | some e =>
        by_cases h1 : e ≤ now
        · have h2 : e ≤ thr := le_trans h1 hthr
          simp only [List.map_cons, List.filterMap_cons, legacyCheckOne, classifyToken, h, hp,
            bucketList_cons, if_pos h1, if_pos h2]
          simp [legacyPair, analyzedPair, ← Multiset.cons_coe]
          simpa using ih
        · by_cases h2 : e ≤ thr
          · simp only [List.map_cons, List.filterMap_cons, legacyCheckOne, classifyToken, h, hp,
              bucketList_cons, if_neg h1, if_pos h2]
            simp [legacyPair, analyzedPair, ← Multiset.cons_coe]
            have ihp := Multiset.coe_eq_coe.mp ih
            rw [List.map_append] at ihp
            rw [Multiset.cons_coe, Multiset.coe_eq_coe]
            exact (ihp.cons _).trans List.perm_middle.symm
          · simp only [List.map_cons, List.filterMap_cons, legacyCheckOne, classifyToken, h, hp,
              bucketList_cons, if_neg h1, if_neg h2]
            simpa using ih

/-- Claim C5: for every token whose `expires_at` field is absent and every
parse function, threshold and evaluation time, `analyze_all_tokens` places
the token in the `no_expiration` bucket with status "No Expiration" and
`days_until_expiry` = "Never"; quantifying over the parse function records
that no date parsing is attempted. -/
theorem analyze_no_expiration_short_circuit (fromiso : String → Option Int)
    (token : Token) (daysThreshold now : Int) (h : token.expiresAt = none) :
    analyzeAllTokens fromiso [token] daysThreshold now =
      { expiringSoon := [], expired := [], healthy := [],
        noExpiration := [⟨token, "No Expiration", DaysValue.never⟩], totalCount := 1 } := by
  have ht : expiresAtTruthy token = none := by simp [expiresAtTruthy, h]
  simp [analyzeAllTokens, processToken, ht]

theorem analyze_no_expiration_short_circuit_witness :
    tokPermanent.expiresAt = none ∧
      analyzeAllTokens isoFail [tokPermanent] 7 0 =
        { expiringSoon := [], expired := [], healthy := [],
          noExpiration := [⟨tokPermanent, "No Expiration", DaysValue.never⟩], totalCount := 1 } :=
  ⟨rfl, analyze_no_expiration_short_circuit isoFail tokPermanent 7 0 rfl⟩

/-- Claim C9: a token whose `expires_at` field is present but equal to the
empty string (falsy in Python) is treated exactly like an absent expiry:
it lands in the `no_expiration` bucket with status "No Expiration" and
`days_until_expiry` = "Never", for every parse function (so it is neither
parsed nor routed to the error path). -/
theorem analyze_empty_expiry_short_circuit (fromiso : String → Option Int)
    (token : Token) (daysThreshold now : Int) (h : token.expiresAt = some ("")) :
    analyzeAllTokens fromiso [token] daysThreshold now =
      { expiringSoon := [], expired := [], healthy := [],
        noExpiration := [⟨token, "No Expiration", DaysValue.never⟩], totalCount := 1 } := by
  have ht : expiresAtTruthy token = none := by simp [expiresAtTruthy, h]
  simp [analyzeAllTokens, processToken, ht]

theorem analyze_empty_expiry_short_circuit_witness :
    tokEmptyExpiry.expiresAt = some ("") ∧
      analyzeAllTokens isoFail [tokEmptyExpiry] 7 0 =
        { expiringSoon := [], expired := [], healthy := [],
          noExpiration := [⟨tokEmptyExpiry, "No Expiration", DaysValue.never⟩], totalCount := 1 } :=
  ⟨rfl, analyze_empty_expiry_short_circuit isoFail tokEmptyExpiry 7 0 rfl⟩

/-- Claim C8: the email report is handed to the reporter exactly when the
send-all-tokens flag is set or the summary's `problematic_count` is
positive, where `problematic_count` is the sum of the expired and
expiring-soon bucket lengths as computed by `get_summary_stats`; otherwise
nothing is sent and no error is raised. -/
theorem notify_iff_send_all_or_problematic (sendAllTokens : Bool) (analysis : TokenAnalysis) :
    ((printSummaryAndNotify sendAllTokens analysis).isSome = true ↔
        sendAllTokens = true ∨ 0 < (getSummaryStats analysis).problematicCount) ∧
      (getSummaryStats analysis).problematicCount =
        analysis.expired.length + analysis.expiringSoon.length := by
  refine ⟨?_, rfl⟩
  unfold printSummaryAndNotify
  split <;> simp_all

/-- Claim C6: `_merge_analysis` concatenates each of the four category
sequences of the addition onto the accumulator's matching sequence,
preserving relative order, and sums `total_count`; it is associative on
the nose, and for any two merge orders of the same batches (any
permutation) the resulting bucket multisets and total count coincide. -/
theorem merge_concat_assoc_comm :
    (∀ a b : TokenAnalysis,
      mergeAnalysis a b =
        { expiringSoon := a.expiringSoon ++ b.expiringSoon,
          expired := a.expired ++ b.expired,
          healthy := a.healthy ++ b.healthy,
          noExpiration := a.noExpiration ++ b.noExpiration,
          totalCount := a.totalCount + b.totalCount }) ∧
    (∀ a b c : TokenAnalysis,
      mergeAnalysis (mergeAnalysis a b) c = mergeAnalysis a (mergeAnalysis b c)) ∧
    (∀ batches1 batches2 : List TokenAnalysis, batches1.Perm batches2 →
      bucketMultisets (batches1.foldl mergeAnalysis emptyAnalysis) =
          bucketMultisets (batches2.foldl mergeAnalysis emptyAnalysis) ∧
        (batches1.foldl mergeAnalysis emptyAnalysis).totalCount =
          (batches2.foldl mergeAnalysis emptyAnalysis).totalCount) := by
  refine ⟨fun a b => rfl, fun a b c => ?_, fun l1 l2 hperm => ⟨?_, ?_⟩⟩
  · simp [mergeAnalysis, List.append_assoc, Nat.add_assoc]
  · rw [foldl_merge_bucketMultisets, foldl_merge_bucketMultisets,
      (hperm.map bucketMultisets).sum_eq]
  · rw [foldl_merge_totalCount, foldl_merge_totalCount,
      (hperm.map TokenAnalysis.totalCount).sum_eq]

theorem merge_concat_assoc_comm_witness :
    bucketMultisets ([sampleBatchA, sampleBatchB].foldl mergeAnalysis emptyAnalysis) =
        bucketMultisets ([sampleBatchB, sampleBatchA].foldl mergeAnalysis emptyAnalysis) ∧
      ([sampleBatchA, sampleBatchB].foldl mergeAnalysis emptyAnalysis).totalCount =
        ([sampleBatchB, sampleBatchA].foldl mergeAnalysis emptyAnalysis).totalCount :=
  merge_concat_assoc_comm.2.2 [sampleBatchA, sampleBatchB] [sampleBatchB, sampleBatchA]
    (List.Perm.swap sampleBatchB sampleBatchA [])

/-- Claim C7: attaching scope metadata to one batch maps every record of
every one of its four buckets to the same record with the owning name and
path written in, leaving status, days-until-expiry and bucket membership
unchanged; merging the decorated batch onto an accumulator leaves every
record of the previously merged batches in place, unchanged, ahead of the
new ones. Both the project and the group variants are covered. -/
theorem attach_metadata_frame (nm : String) (pw : Option String)
    (batch acc : TokenAnalysis) :
    ((attachProjectMeta nm pw batch).expired =
        batch.expired.map (setProjectMeta nm (pw.getD nm)) ∧
      (attachProjectMeta nm pw batch).expiringSoon =
        batch.expiringSoon.map (setProjectMeta nm (pw.getD nm)) ∧
      (attachProjectMeta nm pw batch).healthy =
        batch.healthy.map (setProjectMeta nm (pw.getD nm)) ∧
      (attachProjectMeta nm pw batch).noExpiration =
        batch.noExpiration.map (setProjectMeta nm (pw.getD nm)) ∧
      (attachProjectMeta nm pw batch).totalCount = batch.totalCount) ∧
    (∀ a : AnalyzedToken,
      (setProjectMeta nm (pw.getD nm) a).tok.projectName = some nm ∧
        (setProjectMeta nm (pw.getD nm) a).tok.projectPath = some (pw.getD nm) ∧
        (setProjectMeta nm (pw.getD nm) a).status = a.status ∧
        (setProjectMeta nm (pw.getD nm) a).daysUntilExpiry = a.daysUntilExpiry) ∧
    ((attachGroupMeta nm pw batch).expired =
        batch.expired.map (setGroupMeta nm (pw.getD nm)) ∧
      (attachGroupMeta nm pw batch).expiringSoon =
        batch.expiringSoon.map (setGroupMeta nm (pw.getD nm)) ∧
      (attachGroupMeta nm pw batch).healthy =
        batch.healthy.map (setGroupMeta nm (pw.getD nm)) ∧
      (attachGroupMeta nm pw batch).noExpiration =
        batch.noExpiration.map (setGroupMeta nm (pw.getD nm)) ∧
      (attachGroupMeta nm pw batch).totalCount = batch.totalCount) ∧
    (∀ a : AnalyzedToken,
      (setGroupMeta nm (pw.getD nm) a).tok.groupName = some nm ∧
        (setGroupMeta nm (pw.getD nm) a).tok.groupPath = some (pw.getD nm) ∧
        (setGroupMeta nm (pw.getD nm) a).status = a.status ∧
        (setGroupMeta nm (pw.getD nm) a).daysUntilExpiry = a.daysUntilExpiry) ∧
    ((mergeAnalysis acc (attachProjectMeta nm pw batch)).expired =
        acc.expired ++ (attachProjectMeta nm pw batch).expired ∧
      (mergeAnalysis acc (attachProjectMeta nm pw batch)).expiringSoon =
        acc.expiringSoon ++ (attachProjectMeta nm pw batch).expiringSoon ∧
      (mergeAnalysis acc (attachProjectMeta nm pw batch)).healthy =
        acc.healthy ++ (attachProjectMeta nm pw batch).healthy ∧
      (mergeAnalysis acc (attachProjectMeta nm pw batch)).noExpiration =
        acc.noExpiration ++ (attachProjectMeta nm pw batch).noExpiration) :=
  ⟨⟨rfl, rfl, rfl, rfl, rfl⟩, fun _ => ⟨rfl, rfl, rfl, rfl⟩,
    ⟨rfl, rfl, rfl, rfl, rfl⟩, fun _ => ⟨rfl, rfl, rfl, rfl⟩,
    ⟨rfl, rfl, rfl, rfl⟩⟩

/-- Claim C3: for every input sequence, threshold and evaluation time, the
four buckets of `analyze_all_tokens` form a partition of the input: their
concatenation, projected back to the raw records, is a permutation of the
input (nothing dropped, nothing duplicated), their lengths sum to
`total_count`, and `total_count` is the input length. -/
theorem analyze_partition_totality (fromiso : String → Option Int) (tokens : List Token)
    (daysThreshold now : Int) :
    List.Perm
      (((analyzeAllTokens fromiso tokens daysThreshold now).expired ++
          (analyzeAllTokens fromiso tokens daysThreshold now).expiringSoon ++
          (analyzeAllTokens fromiso tokens daysThreshold now).healthy ++
          (analyzeAllTokens fromiso tokens daysThreshold now).noExpiration).map
        AnalyzedToken.tok)
      tokens ∧
    (analyzeAllTokens fromiso tokens daysThreshold now).expired.length +
        (analyzeAllTokens fromiso tokens daysThreshold now).expiringSoon.length +
        (analyzeAllTokens fromiso tokens daysThreshold now).healthy.length +
        (analyzeAllTokens fromiso tokens daysThreshold now).noExpiration.length =
      (analyzeAllTokens fromiso tokens daysThreshold now).totalCount ∧
    (analyzeAllTokens fromiso tokens daysThreshold now).totalCount = tokens.length := by
  rw [analyzeAllTokens_eq]
  refine ⟨?_, ?_, rfl⟩
  case refine_2 =>
    simpa using
      bucketList_length_sum
        (tokens.map (classifyToken fromiso now (now + daysThreshold * secondsPerDay)))
  have hp :=
    (bucketLists_append_perm
      (tokens.map (classifyToken fromiso now (now + daysThreshold * secondsPerDay)))).map
      AnalyzedToken.tok
  have hmap :
      ((tokens.map (classifyToken fromiso now (now + daysThreshold * secondsPerDay))).map
          Prod.fst).map AnalyzedToken.tok = tokens := by
    simp [List.map_map, Function.comp_def, classifyToken_fst_tok]
  exact hp.trans (by rw [hmap])

/-- Claim C1: for a token whose expiry parses to the instant `e`, the
rules are evaluated in order with first match winning: `e ≤ now` puts the
token in the expired bucket (with no exclusion for also being inside the
threshold window), otherwise `e ≤ now + threshold` days puts it in
expiring-soon (threshold boundary inclusive), otherwise it is healthy; in
the spec's seven-day scenario the exact threshold instant is expiring-soon
and one day past it is healthy. -/
theorem analyze_classification_order (fromiso : String → Option Int) (token : Token)
    (s : String) (e daysThreshold now : Int)
    (hs : expiresAtTruthy token = some s)
    (hp : fromiso (s.replace ("Z") ("+00:00")) = some e) :
    (e ≤ now →
      analyzeAllTokens fromiso [token] daysThreshold now =
        { expiringSoon := [],
          expired := [⟨token, "Expired", DaysValue.num (Int.fdiv (e - now) secondsPerDay)⟩],
          healthy := [], noExpiration := [], totalCount := 1 }) ∧
    (now < e → e ≤ now + daysThreshold * secondsPerDay →
      analyzeAllTokens fromiso [token] daysThreshold now =
        { expiringSoon :=
            [⟨token, "Expiring Soon", DaysValue.num (Int.fdiv (e - now) secondsPerDay)⟩],
          expired := [], healthy := [], noExpiration := [], totalCount := 1 }) ∧
    (now < e → now + daysThreshold * secondsPerDay < e →
      analyzeAllTokens fromiso [token] daysThreshold now =
        { expiringSoon := [], expired := [],
          healthy := [⟨token, "Healthy", DaysValue.num (Int.fdiv (e - now) secondsPerDay)⟩],
          noExpiration := [], totalCount := 1 }) ∧
    (e = now + 7 * secondsPerDay →
      (analyzeAllTokens fromiso [token] 7 now).expiringSoon =
        [⟨token, "Expiring Soon", DaysValue.num (Int.fdiv (e - now) secondsPerDay)⟩]) ∧
    (e = now + 8 * secondsPerDay →
      (analyzeAllTokens fromiso [token] 7 now).healthy =
        [⟨token, "Healthy", DaysValue.num (Int.fdiv (e - now) secondsPerDay)⟩]) := by
  refine ⟨?_, ?_, ?_, ?_, ?_⟩
  · intro h1
    simp [analyzeAllTokens, processToken, hs, hp, h1]
  · intro h1 h2
    simp [analyzeAllTokens, processToken, hs, hp, h2,
      show ¬ e ≤ now from not_le.mpr h1]
  · intro h1 h2
    simp [analyzeAllTokens, processToken, hs, hp,
      show ¬ e ≤ now from not_le.mpr h1,
      show ¬ e ≤ now + daysThreshold * secondsPerDay from not_le.mpr h2]
  · intro heq
    have h1 : ¬ e ≤ now := by simp only [heq, secondsPerDay]; omega
    have h2 : e ≤ now + 7 * secondsPerDay := le_of_eq heq
    simp [analyzeAllTokens, processToken, hs, hp, h1, h2]
  · intro heq
    have h1 : ¬ e ≤ now := by simp only [heq, secondsPerDay]; omega
    have h2 : ¬ e ≤ now + 7 * secondsPerDay := by simp only [heq, secondsPerDay]; omega
    simp [analyzeAllTokens, processToken, hs, hp, h1, h2]

theorem analyze_classification_order_witness :
    expiresAtTruthy tokPersonal = some ("2024-01-08T00:00:00") ∧
      (0 : Int) ≤ 43200 ∧ (0 : Int) ≤ 43200 + 7 * secondsPerDay ∧
      analyzeAllTokens (isoConst 0) [tokPersonal] 7 43200 =
        { expiringSoon := [],
          expired :=
            [⟨tokPersonal, "Expired", DaysValue.num (Int.fdiv (0 - 43200) secondsPerDay)⟩],
          healthy := [], noExpiration := [], totalCount := 1 } :=
  ⟨by decide, by decide, by decide,
    (analyze_classification_order (isoConst 0) tokPersonal ("2024-01-08T00:00:00") 0 7 43200
      (by decide) rfl).1 (by decide)⟩

/-- Claim C2: a token whose expiry string is present but fails to parse is
still classified (the embedding is a total function): it is placed in the
healthy bucket with status "Error" and `days_until_expiry` "Unknown",
`total_count` still counts it, and the four buckets still account for
every input record. -/
theorem analyze_parse_error_fail_open (fromiso : String → Option Int)
    (pre post : List Token) (token : Token) (s : String) (daysThreshold now : Int)
    (hs : expiresAtTruthy token = some s)
    (hp : fromiso (s.replace ("Z") ("+00:00")) = none) :
    (⟨token, "Error", DaysValue.unknown⟩ : AnalyzedToken) ∈
        (analyzeAllTokens fromiso (pre ++ token :: post) daysThreshold now).healthy ∧
      (analyzeAllTokens fromiso (pre ++ token :: post) daysThreshold now).totalCount =
        (pre ++ token :: post).length ∧
      (analyzeAllTokens fromiso (pre ++ token :: post) daysThreshold now).expired.length +
          (analyzeAllTokens fromiso (pre ++ token :: post) daysThreshold now).expiringSoon.length +
          (analyzeAllTokens fromiso (pre ++ token :: post) daysThreshold now).healthy.length +
          (analyzeAllTokens fromiso (pre ++ token :: post) daysThreshold now).noExpiration.length =
        (analyzeAllTokens fromiso (pre ++ token :: post) daysThreshold now).totalCount := by
  rw [analyzeAllTokens_eq]
  refine ⟨?_, rfl, ?_⟩
  case refine_2 =>
    simpa using
      bucketList_length_sum
        ((pre ++ token :: post).map
          (classifyToken fromiso now (now + daysThreshold * secondsPerDay)))
  apply mem_bucketList
  have hc : classifyToken fromiso now (now + daysThreshold * secondsPerDay) token =
      (⟨token, "Error", DaysValue.unknown⟩, Bucket.healthy) := by
    simp [classifyToken, hs, hp]
  rw [← hc]
  exact List.mem_map_of_mem _ (by simp)

theorem analyze_parse_error_fail_open_witness :
    expiresAtTruthy tokMalformed = some ("not-a-date") ∧
      ((⟨tokMalformed, "Error", DaysValue.unknown⟩ : AnalyzedToken) ∈
          (analyzeAllTokens isoFail [tokMalformed] 7 0).healthy ∧
        (analyzeAllTokens isoFail [tokMalformed] 7 0).totalCount = [tokMalformed].length ∧
        (analyzeAllTokens isoFail [tokMalformed] 7 0).expired.length +
            (analyzeAllTokens isoFail [tokMalformed] 7 0).expiringSoon.length +
            (analyzeAllTokens isoFail [tokMalformed] 7 0).healthy.length +
            (analyzeAllTokens isoFail [tokMalformed] 7 0).noExpiration.length =
          (analyzeAllTokens isoFail [tokMalformed] 7 0).totalCount) :=
  ⟨by decide,
    analyze_parse_error_fail_open isoFail [] [] tokMalformed ("not-a-date") 7 0
      (by decide) rfl⟩

/-- Claim C4: for a token whose expiry parses to the instant `e`, the
classified record carries `days_until_expiry` equal to the floor of
`(e - now)` in whole days (truncation toward negative infinity, so any
expiry strictly before `now` gives a strictly negative count and a
remaining duration under one day gives 0); and for every record of any
analysis the field is always set, to a number or to one of the sentinels
"Never" / "Unknown". -/
theorem analyze_days_until_expiry_floor (fromiso : String → Option Int)
    (pre post : List Token) (token : Token) (s : String) (e daysThreshold now : Int)
    (hs : expiresAtTruthy token = some s)
    (hp : fromiso (s.replace ("Z") ("+00:00")) = some e) :
    (∃ a : AnalyzedToken,
        (a ∈ (analyzeAllTokens fromiso (pre ++ token :: post) daysThreshold now).expired ∨
          a ∈ (analyzeAllTokens fromiso (pre ++ token :: post) daysThreshold now).expiringSoon ∨
          a ∈ (analyzeAllTokens fromiso (pre ++ token :: post) daysThreshold now).healthy) ∧
        a.tok = token ∧
        a.daysUntilExpiry = DaysValue.num (Int.fdiv (e - now) secondsPerDay)) ∧
    (e < now → Int.fdiv (e - now) secondsPerDay < 0) ∧
    (0 ≤ e - now → e - now < secondsPerDay → Int.fdiv (e - now) secondsPerDay = 0) ∧
    (∀ (tokens : List Token) (a : AnalyzedToken),
      (a ∈ (analyzeAllTokens fromiso tokens daysThreshold now).expired ∨
        a ∈ (analyzeAllTokens fromiso tokens daysThreshold now).expiringSoon ∨
        a ∈ (analyzeAllTokens fromiso tokens daysThreshold now).healthy ∨
        a ∈ (analyzeAllTokens fromiso tokens daysThreshold now).noExpiration) →
      (∃ k, a.daysUntilExpiry = DaysValue.num k) ∨
        a.daysUntilExpiry = DaysValue.never ∨ a.daysUntilExpiry = DaysValue.unknown) := by
  refine ⟨?_, ?_, ?_, ?_⟩
  · rw [analyzeAllTokens_eq]
    by_cases h1 : e ≤ now
    · refine ⟨⟨token, "Expired", DaysValue.num (Int.fdiv (e - now) secondsPerDay)⟩,
        Or.inl ?_, rfl, rfl⟩
      apply mem_bucketList
      have hc : classifyToken fromiso now (now + daysThreshold * secondsPerDay) token =
          (⟨token, "Expired", DaysValue.num (Int.fdiv (e - now) secondsPerDay)⟩,
            Bucket.expired) := by
        simp [classifyToken, hs, hp, h1]
      rw [← hc]
      exact List.mem_map_of_mem _ (by simp)
    · by_cases h2 : e ≤ now + daysThreshold * secondsPerDay
      · refine ⟨⟨token, "Expiring Soon", DaysValue.num (Int.fdiv (e - now) secondsPerDay)⟩,
          Or.inr (Or.inl ?_), rfl, rfl⟩
        apply mem_bucketList
        have hc : classifyToken fromiso now (now + daysThreshold * secondsPerDay) token =
            (⟨token, "Expiring Soon", DaysValue.num (Int.fdiv (e - now) secondsPerDay)⟩,
              Bucket.expiringSoon) := by
          simp [classifyToken, hs, hp, h1, h2]
        rw [← hc]
        exact List.mem_map_of_mem _ (by simp)
      · refine ⟨⟨token, "Healthy", DaysValue.num (Int.fdiv (e - now) secondsPerDay)⟩,
          Or.inr (Or.inr ?_), rfl, rfl⟩
        apply mem_bucketList
        have hc : classifyToken fromiso now (now + daysThreshold * secondsPerDay) token =
            (⟨token, "Healthy", DaysValue.num (Int.fdiv (e - now) secondsPerDay)⟩,
              Bucket.healthy) := by
          simp [classifyToken, hs, hp, h1, h2]
        rw [← hc]
        exact List.mem_map_of_mem _ (by simp)
  · intro hlt
    rw [Int.fdiv_eq_ediv _ (by norm_num [secondsPerDay])]
    simp only [secondsPerDay]
    omega
  · intro hge hlt
    rw [Int.fdiv_eq_ediv _ (by norm_num [secondsPerDay])]
    simp only [secondsPerDay] at hlt ⊢
    omega
  · intro tokens a _
    cases h : a.daysUntilExpiry with
    | num k => exact Or.inl ⟨k, rfl⟩
    | never => exact Or.inr (Or.inl rfl)
    | unknown => exact Or.inr (Or.inr rfl)

theorem analyze_days_until_expiry_floor_witness :
    (0 : Int) ≤ 64800 - 0 ∧ 64800 - 0 < secondsPerDay ∧
      Int.fdiv (64800 - 0) secondsPerDay = 0 ∧
      (∃ a : AnalyzedToken,
        (a ∈ (analyzeAllTokens (isoConst 64800) [tokPersonal] 7 0).expired ∨
          a ∈ (analyzeAllTokens (isoConst 64800) [tokPersonal] 7 0).expiringSoon ∨
          a ∈ (analyzeAllTokens (isoConst 64800) [tokPersonal] 7 0).healthy) ∧
        a.tok = tokPersonal ∧
        a.daysUntilExpiry = DaysValue.num (Int.fdiv (64800 - 0) secondsPerDay)) :=
  ⟨by decide, by decide,
    (analyze_days_until_expiry_floor (isoConst 64800) [] [] tokPersonal
        ("2024-01-08T00:00:00") 64800 7 0 (by decide) rfl).2.2.1 (by decide) (by decide),
    (analyze_days_until_expiry_floor (isoConst 64800) [] [] tokPersonal
        ("2024-01-08T00:00:00") 64800 7 0 (by decide) rfl).1⟩

/-- Claim C10, counterexample: with a negative threshold (representable,
since `days_threshold` is a plain integer) the legacy
`check_token_expiration` returns nothing for a token that
`analyze_all_tokens` places in the expired bucket, so the two multisets
differ: here the token's expiry parses to instant 0, `now` is half a day
later, and the threshold is -1 day. -/
theorem legacy_refinement_cex :
    ¬ ((((checkTokenExpiration (isoConst 0) [tokMalformed] (-1) 43200).map legacyPair :
            List (Token × DaysValue)) : Multiset (Token × DaysValue)) =
        ((((analyzeAllTokens (isoConst 0) [tokMalformed] (-1) 43200).expired ++
              (analyzeAllTokens (isoConst 0) [tokMalformed] (-1) 43200).expiringSoon).map
            analyzedPair : List (Token × DaysValue)) : Multiset (Token × DaysValue))) := by
  decide

/-- Claim C10, amended with a non-negative threshold: for every parse
function, token list, threshold `≥ 0` and evaluation time, the multiset of
(token, days-until-expiry) pairs returned by the legacy
`check_token_expiration` equals that of the union of the expired and
expiring-soon buckets of `analyze_all_tokens` — both exclude permanent
tokens and tokens whose expiry fails to parse, and each returned token
carries the same `days_until_expiry` value. -/
theorem legacy_refines_analyze (fromiso : String → Option Int) (tokens : List Token)
    (daysThreshold now : Int) (hT : 0 ≤ daysThreshold) :
    (((checkTokenExpiration fromiso tokens daysThreshold now).map legacyPair :
        List (Token × DaysValue)) : Multiset (Token × DaysValue)) =
      ((((analyzeAllTokens fromiso tokens daysThreshold now).expired ++
            (analyzeAllTokens fromiso tokens daysThreshold now).expiringSoon).map
          analyzedPair : List (Token × DaysValue)) : Multiset (Token × DaysValue)) := by
  rw [checkTokenExpiration_eq, analyzeAllTokens_eq]
  exact legacy_matches_problematic_buckets fromiso now (now + daysThreshold * secondsPerDay)
    (by simp only [secondsPerDay]; omega) tokens

theorem legacy_refines_analyze_witness :
    (0 : Int) ≤ 7 ∧
      (((checkTokenExpiration (isoConst 0) [tokPersonal] 7 43200).map legacyPair :
          List (Token × DaysValue)) : Multiset (Token × DaysValue)) =
        ((((analyzeAllTokens (isoConst 0) [tokPersonal] 7 43200).expired ++
              (analyzeAllTokens (isoConst 0) [tokPersonal] 7 43200).expiringSoon).map
            analyzedPair : List (Token × DaysValue)) : Multiset (Token × DaysValue)) :=
  ⟨by decide, legacy_refines_analyze (isoConst 0) [tokPersonal] 7 43200 (by decide)⟩
